import Mathlib

/-!
Verification of the procedure-management module of scratch-blocks
(Blockly.Procedures in src/unnamed/part_000 and
Blockly.WorkspaceSvg.prototype.processProcedureReturnsChanged_ in
src/core/newFile.js).

The workspace graph supplied by the host toolkit is embedded shallowly:
a block is a node carrying the host-visible fields the module reads
(type tag, output shape, procCode, getProcedureDef name, returnType,
insertion-marker flag, flyout flag) together with its input children and
the block chained below it.  Host collaborators that live outside the
two source files (Blockly.Names.equals, scratchBlocksUtils.compareStrings,
the numeric constants) are modelled from the specification, as marked.
-/

set_option autoImplicit false

namespace ScratchProcedures

/-- Modelled from the spec: the block-type tag of procedure call blocks
(Blockly.PROCEDURES_CALL_BLOCK_TYPE). -/
def PROCEDURES_CALL_BLOCK_TYPE : String := "procedures_call"

/-- Modelled from the spec: the block-type tag of procedure definition blocks
(Blockly.PROCEDURES_DEFINITION_BLOCK_TYPE). -/
def PROCEDURES_DEFINITION_BLOCK_TYPE : String := "procedures_definition"

/-- Modelled from the spec: the block-type tag of procedure prototype blocks
(Blockly.PROCEDURES_PROTOTYPE_BLOCK_TYPE). -/
def PROCEDURES_PROTOTYPE_BLOCK_TYPE : String := "procedures_prototype"

/-- Modelled from the spec: the block-type tag of return-statement blocks
(Blockly.PROCEDURES_RETURN_BLOCK_TYPE). -/
def PROCEDURES_RETURN_BLOCK_TYPE : String := "procedures_return"

/-- Modelled from the spec: Blockly.OUTPUT_SHAPE_HEXAGONAL, the shape tag of
boolean-producing expression blocks. -/
def OUTPUT_SHAPE_HEXAGONAL : Nat := 1

/-- Modelled from the spec: Blockly.OUTPUT_SHAPE_ROUND, the shape tag of
generic reporter expression blocks. -/
def OUTPUT_SHAPE_ROUND : Nat := 2

/-- Modelled from the spec: the STATEMENT return-type tag
(Blockly.PROCEDURES_CALL_TYPE_STATEMENT).  Only distinctness of the three
tags matters to the verified code. -/
def PROCEDURES_CALL_TYPE_STATEMENT : Nat := 0

/-- Modelled from the spec: the REPORTER return-type tag
(Blockly.PROCEDURES_CALL_TYPE_REPORTER). -/
def PROCEDURES_CALL_TYPE_REPORTER : Nat := 1

/-- Modelled from the spec: the BOOLEAN return-type tag
(Blockly.PROCEDURES_CALL_TYPE_BOOLEAN). -/
def PROCEDURES_CALL_TYPE_BOOLEAN : Nat := 2

/-- The host-visible fields of a workspace block that the procedure module
reads.  Methods probed dynamically in the source (getProcedureDef,
getProcCode, renameProcedure) are modelled as optional fields / flags. -/
structure BlockData where
  /-- Unique block id; JS reference equality of blocks is id equality. -/
  id : Nat
  /-- block.type -/
  btype : String
  /-- block.outputShape_ -/
  outputShape : Nat
  /-- getProcCode(): some pc when the block exposes the method. -/
  procCode : Option String
  /-- getProcedureDef(): some name (first tuple component) when exposed. -/
  procDefName : Option String
  /-- getReturn(): the cached return-type tag of a call block. -/
  returnType : Nat
  /-- isInsertionMarker() -/
  isInsertionMarker : Bool
  /-- block.isInFlyout -/
  isInFlyout : Bool
  /-- whether the block exposes renameProcedure -/
  hasRenameProcedure : Bool
  deriving DecidableEq, Repr

/-- A workspace block: its data, its input target blocks in input order,
and the block connected below it (next connection), if any. -/
inductive Block where
  | node (data : BlockData) (inputs : List Block) (next : Option Block)

namespace Block

def data : Block → BlockData
  | .node d _ _ => d

def inputs : Block → List Block
  | .node _ ins _ => ins

/-- getNextBlock(): the block chained below this one, if any. -/
def next : Block → Option Block
  | .node _ _ nx => nx

def id (b : Block) : Nat := b.data.id
def btype (b : Block) : String := b.data.btype
def outputShape (b : Block) : Nat := b.data.outputShape
def procCode (b : Block) : Option String := b.data.procCode
def procDefName (b : Block) : Option String := b.data.procDefName
def returnType (b : Block) : Nat := b.data.returnType
def isInsertionMarker (b : Block) : Bool := b.data.isInsertionMarker
def isInFlyout (b : Block) : Bool := b.data.isInFlyout
def hasRenameProcedure (b : Block) : Bool := b.data.hasRenameProcedure

end Block

mutual

/-- block.getDescendants(): this block and every block that is a child of it
(input targets first, in input order, then the chained next block),
depth-first pre-order. -/
def getDescendants : Block → List Block
  | .node d ins nx => .node d ins nx :: (getDescendantsList ins ++ getDescendantsOpt nx)

/-- Descendants of each block of a list, concatenated in order. -/
def getDescendantsList : List Block → List Block
  | [] => []
  | b :: bs => getDescendants b ++ getDescendantsList bs

/-- Descendants of an optional block. -/
def getDescendantsOpt : Option Block → List Block
  | none => []
  | some b => getDescendants b

end

/-- A workspace: its top-level (unparented) blocks in order, and the
workspace-level flag read by the flyout builder. -/
structure Workspace where
  topBlocks : List Block
  /-- workspace.procedureReturnsEnabled -/
  procedureReturnsEnabled : Bool

/-- workspace.getTopBlocks(): the top-level blocks. -/
def Workspace.getTopBlocks (ws : Workspace) : List Block := ws.topBlocks

/-- workspace.getAllBlocks(): every block of the workspace (top blocks and
all their descendants).  The host enumerates these in breadth-first order;
all uses in the verified module are order-insensitive (first-match search
and exhaustive iteration), so pre-order concatenation is used here. -/
def Workspace.getAllBlocks (ws : Workspace) : List Block :=
  getDescendantsList ws.topBlocks

/-- A change notification observed by the host undo/event system.  Only the
notifications emitted by the verified module are modelled: change-group
delimiters (Blockly.Events.setGroup(true/false)), the destructive rebuild
performed by changeReturnType (dispose + re-instantiate with a patched
return tag), the disposal of a whole definition stack, a fired BlockChange
mutation event, and the toolbox-refresh signal. -/
inductive Ev where
  | groupStart
  | groupEnd
  | rebuild (id : Nat) (returnType : Nat)
  | disposeStack (id : Nat)
  | blockChange (id : Nat)
  | refreshToolbox
  deriving DecidableEq, Repr

/-! ## ProcedureRegistry: names -/

/-- Lowercasing of a string, character by character. -/
def lowercase (s : String) : String := String.mk (s.data.map Char.toLower)

/-- Modelled from the spec: Blockly.Names.equals (core/names.js, outside
src/), the case/locale-insensitive string equality used for name matching. -/
def namesEquals (name1 name2 : String) : Bool := lowercase name1 == lowercase name2

/-- The scan loop of Blockly.Procedures.isNameUsed (part_000:177-187):
skips the excluded block (JS reference equality, modelled by id), and on the
first block whose getProcedureDef name matches, returns false; when the scan
completes without a match it returns true.  This is translated verbatim:
the source returns false on a match and true otherwise, the reverse of what
its own doc comment states. -/
def isNameUsedLoop (name : String) (optExclude : Option Nat) : List Block → Bool
  | [] => true
  | block :: rest =>
    if optExclude = some block.id then isNameUsedLoop name optExclude rest
    else
      match block.procDefName with
      | some procName =>
        if namesEquals procName name then false else isNameUsedLoop name optExclude rest
      | none => isNameUsedLoop name optExclude rest

/-- Blockly.Procedures.isNameUsed (part_000:174-189). -/
def isNameUsed (name : String) (workspace : Workspace) (optExclude : Option Nat) : Bool :=
  isNameUsedLoop name optExclude workspace.getAllBlocks

/-- Blockly.Procedures.isLegalName_ (part_000:162-164). -/
def isLegalName_ (name : String) (workspace : Workspace) (optExclude : Option Nat) : Bool :=
  !(isNameUsed name workspace optExclude)

/-- Split a string into its stem and its maximal trailing run of decimal
digits, as captured by the regular expression match of part_000:142. -/
def splitTrailingDigits (s : String) : String × String :=
  let rev := s.data.reverse
  (String.mk (rev.dropWhile Char.isDigit).reverse,
   String.mk (rev.takeWhile Char.isDigit).reverse)

/-- Numeric value of a digit string (parseInt of the captured suffix). -/
def digitsToNat (s : String) : Nat :=
  s.data.foldl (fun n c => n * 10 + (c.toNat - '0'.toNat)) 0

/-- The loop body of Blockly.Procedures.findLegalName (part_000:141-147):
append 2 when the name has no trailing digits, otherwise increment the
trailing number. -/
def incrementName (name : String) : String :=
  let p := splitTrailingDigits name
  if p.2.isEmpty then name ++ "2" else p.1 ++ toString (digitsToNat p.2 + 1)

/-- The while loop of Blockly.Procedures.findLegalName (part_000:140-148),
made total with explicit fuel: none means the loop did not terminate within
fuel iterations. -/
def findLegalNameLoop (workspace : Workspace) (blockId : Nat) :
    Nat → String → Option String
  | 0, _ => none
  | fuel + 1, name =>
    if isLegalName_ name workspace (some blockId) then some name
    else findLegalNameLoop workspace blockId fuel (incrementName name)

/-- Blockly.Procedures.findLegalName (part_000:135-150).  The workspace is
passed explicitly (the source reads block.workspace). -/
def findLegalName (fuel : Nat) (name : String) (block : Block)
    (workspace : Workspace) : Option String :=
  if block.isInFlyout then some name
  else findLegalNameLoop workspace block.id fuel name

/-- The JS whitespace class of the strip regex of part_000:199, restricted
to its ASCII members plus the no-break space (the members exercised by the
procedure names of this development). -/
def isJsSpace (c : Char) : Bool :=
  c == ' ' || c == '\t' || c == '\n' || c == '\x0b' || c == '\x0c' ||
    c == '\r' || c == '\xa0'

/-- The leading/trailing whitespace strip of part_000:199. -/
def stripProcedureName (s : String) : String :=
  String.mk ((s.data.dropWhile isJsSpace).reverse.dropWhile isJsSpace).reverse

/-- Blockly.Procedures.rename (part_000:197-214).  The field context is
passed explicitly: oldName is this.text_, block is this.sourceBlock_, and
workspace is this.sourceBlock_.workspace.  The result carries the accepted
name, the ids of the blocks on which renameProcedure was invoked
(part_000:206-211), and the change-group markers emitted — the source opens
no event group, so that trace is empty.  none when findLegalName does not
terminate within fuel. -/
def rename (fuel : Nat) (proposedName oldName : String) (block : Block)
    (workspace : Workspace) : Option (String × List Nat × List Ev) :=
  let name := stripProcedureName proposedName
  match findLegalName fuel name block workspace with
  | none => none
  | some legalName =>
    if oldName != name && oldName != legalName then
      some (legalName,
        (workspace.getAllBlocks.filter (fun b => b.hasRenameProcedure)).map Block.id,
        [])
    else
      some (legalName, [], [])

/-! ## ProcedureRegistry: callers and definitions -/

/-- Blockly.Procedures.getCallers (part_000:343-368).  definitionRootId is
the id of the definitionRoot block (the source only reads its id). -/
def getCallers (name : String) (ws : Workspace) (definitionRootId : Nat)
    (allowRecursive : Bool) : List Block :=
  let allBlocks :=
    (ws.getTopBlocks.filter
      (fun block => !(block.id == definitionRootId && !allowRecursive))).flatMap
      getDescendants
  allBlocks.filter (fun block =>
    block.btype == PROCEDURES_CALL_BLOCK_TYPE &&
      match block.procCode with
      | some procCode => procCode != "" && procCode == name
      | none => false)

/-- Blockly.Procedures.getDefineBlock (part_000:416-428): first top-level
definition block whose prototype (the target of the custom_block input,
modelled as the first input child) exposes a matching procCode. -/
def getDefineBlock (procCode : String) (workspace : Workspace) : Option Block :=
  workspace.getTopBlocks.find? (fun block =>
    block.btype == PROCEDURES_DEFINITION_BLOCK_TYPE &&
      match block.inputs.head? with
      | some prototypeBlock =>
        (match prototypeBlock.procCode with
         | some pc => pc == procCode
         | none => false)
      | none => false)

/-- Blockly.Procedures.getPrototypeBlock (part_000:437-443). -/
def getPrototypeBlock (procCode : String) (workspace : Workspace) : Option Block :=
  match getDefineBlock procCode workspace with
  | some defineBlock => defineBlock.inputs.head?
  | none => none

/-- Blockly.Procedures.deleteProcedureDefCallback (part_000:704-725):
returns the boolean result, the workspace after the call, and the emitted
notifications.  Disposing definitionRoot removes its whole stack from the
top-block list. -/
def deleteProcedureDefCallback (procCode : String) (definitionRoot : Block)
    (workspace : Workspace) : Bool × Workspace × List Ev :=
  let callers := getCallers procCode workspace definitionRoot.id false
  if callers.length > 0 then
    (false, workspace, [])
  else
    (true,
     { workspace with
        topBlocks := workspace.topBlocks.filter (fun b => b.id != definitionRoot.id) },
     [Ev.groupStart, Ev.disposeStack definitionRoot.id, Ev.groupEnd,
      Ev.refreshToolbox])

/-! ## Return-type inference -/

/-- The scan loop of Blockly.Procedures.getBlockReturnType (part_000:797-818)
over the remaining descendant list, carrying hasSeenBooleanReturn: a return
block whose immediately following descendant is hexagonal is tentatively
boolean and the scan continues; a return block followed by a non-hexagonal
descendant, or by nothing, yields REPORTER at once; an exhausted scan yields
BOOLEAN when a tentative boolean return was seen and STATEMENT otherwise. -/
def getBlockReturnTypeScan : List Block → Bool → Nat
  | [], hasSeenBooleanReturn =>
    if hasSeenBooleanReturn then PROCEDURES_CALL_TYPE_BOOLEAN
    else PROCEDURES_CALL_TYPE_STATEMENT
  | block :: rest, hasSeenBooleanReturn =>
    if block.btype == PROCEDURES_RETURN_BLOCK_TYPE then
      match rest with
      | nextDescendant :: _ =>
        if nextDescendant.outputShape == OUTPUT_SHAPE_HEXAGONAL then
          getBlockReturnTypeScan rest true
        else PROCEDURES_CALL_TYPE_REPORTER
      | [] => PROCEDURES_CALL_TYPE_REPORTER
    else getBlockReturnTypeScan rest hasSeenBooleanReturn

/-- Blockly.Procedures.getBlockReturnType (part_000:793-819). -/
def getBlockReturnType (block : Block) : Nat :=
  getBlockReturnTypeScan (getDescendants block) false

/-- Blockly.Procedures.getProcedureReturnType (part_000:752-761). -/
def getProcedureReturnType (procCode : String) (workspace : Workspace) : Nat :=
  match getDefineBlock procCode workspace with
  | none => PROCEDURES_CALL_TYPE_STATEMENT
  | some defineBlock => getBlockReturnType defineBlock

/-- A snapshot of procedure return types: an insertion-ordered record with
string keys (Object.create(null) in the source). -/
abbrev TypeMap := List (String × Nat)

/-- result[procCode] lookup: first binding of the key. -/
def lookupType (m : TypeMap) (k : String) : Option Nat :=
  (m.find? (fun kv => kv.1 == k)).map (fun kv => kv.2)

/-- Object.prototype.hasOwnProperty.call(m, k). -/
def hasOwnProp (m : TypeMap) (k : String) : Bool := (lookupType m k).isSome

/-- The accumulation loop of Blockly.Procedures.getAllProcedureReturnTypes
(part_000:770-781): non-insertion-marker top-level definition blocks, first
definition of each procCode wins, insertion order preserved. -/
def getAllProcedureReturnTypesLoop : List Block → TypeMap → TypeMap
  | [], result => result
  | block :: rest, result =>
    if block.btype == PROCEDURES_DEFINITION_BLOCK_TYPE && !block.isInsertionMarker then
      match block.inputs.head? with
      | some prototypeBlock =>
        (match prototypeBlock.procCode with
         | some procCode =>
           if hasOwnProp result procCode then
             getAllProcedureReturnTypesLoop rest result
           else
             getAllProcedureReturnTypesLoop rest
               (result ++ [(procCode, getBlockReturnType block)])
         | none => getAllProcedureReturnTypesLoop rest result)
      | none => getAllProcedureReturnTypesLoop rest result
    else getAllProcedureReturnTypesLoop rest result

/-- Blockly.Procedures.getAllProcedureReturnTypes (part_000:767-783). -/
def getAllProcedureReturnTypes (workspace : Workspace) : TypeMap :=
  getAllProcedureReturnTypesLoop workspace.getTopBlocks []

/-! ## ReturnTypeReconciler -/

/-- Blockly.Procedures.changeReturnType (part_000:652-664): the destructive
rebuild that re-instantiates the block with the return attribute of its
serialized form patched; observationally the block with its returnType
replaced. -/
def changeReturnType (block : Block) (returnType : Nat) : Block :=
  .node { block.data with returnType := returnType } block.inputs block.next

/-- The guard chain of the top-block loop of
processProcedureReturnsChanged_ (newFile.js:60-99): some t when the call
block is rewritten to t, none when one of the guards skips it.  A call block
never lacks getProcCode; the none case mirrors the failing hasOwnProperty
lookup such a block would produce. -/
def callRewriteType (userCanChangeCallType : Bool)
    (initialTypes finalTypes : TypeMap) (block : Block) : Option Nat :=
  if block.btype != PROCEDURES_CALL_BLOCK_TYPE then none
  else if block.isInsertionMarker then none
  else if block.next.isSome then none
  else
    match block.procCode with
    | none => none
    | some procCode =>
      match lookupType initialTypes procCode, lookupType finalTypes procCode with
      | some initialType, some actualReturnType =>
        if block.returnType != actualReturnType &&
            (!userCanChangeCallType || initialType != actualReturnType) then
          some actualReturnType
        else none
      | _, _ => none

/-- One iteration of the top-block loop of newFile.js:57-102. -/
def processReturnsTop (userCanChangeCallType : Bool)
    (initialTypes finalTypes : TypeMap) (block : Block) : Block :=
  match callRewriteType userCanChangeCallType initialTypes finalTypes block with
  | some actualReturnType => changeReturnType block actualReturnType
  | none => block

/-- The toolbox staleness test of newFile.js:107-118: some procCode of the
final snapshot is also a key of the initial snapshot and its two lookups
differ. -/
def toolboxOutdated (initialTypes finalTypes : TypeMap) : Bool :=
  finalTypes.any (fun kv =>
    hasOwnProp initialTypes kv.1 &&
      lookupType initialTypes kv.1 != lookupType finalTypes kv.1)

/-- Blockly.WorkspaceSvg.prototype.processProcedureReturnsChanged_
(newFile.js:29-122): initialTypes is the stored snapshot
this.initialProcedureReturnTypes_, the final snapshot is recomputed from
the workspace; returns the workspace after the pass and whether
refreshToolboxSelection_ was requested. -/
def processProcedureReturnsChanged (userCanChangeCallType : Bool)
    (initialTypes : TypeMap) (workspace : Workspace) : Workspace × Bool :=
  let finalTypes := getAllProcedureReturnTypes workspace
  ({ workspace with
      topBlocks :=
        workspace.topBlocks.map
          (processReturnsTop userCanChangeCallType initialTypes finalTypes) },
   toolboxOutdated initialTypes finalTypes)

/-! ## Event traces of the mutation batches (exception behavior) -/

/-- The rewrite loop of newFile.js:57-102 as an event trace with a throw
oracle: thr id is true when the changeReturnType rebuild of the block with
that id throws.  On a throw the loop is abandoned (no try/finally in the
source); the Boolean records whether a throw occurred. -/
def processReturnsChangedEvLoop (userCanChangeCallType : Bool)
    (initialTypes finalTypes : TypeMap) (thr : Nat → Bool) :
    List Block → List Ev × Bool
  | [] => ([], false)
  | block :: rest =>
    match callRewriteType userCanChangeCallType initialTypes finalTypes block with
    | some actualReturnType =>
      if thr block.id then ([], true)
      else
        let r := processReturnsChangedEvLoop userCanChangeCallType initialTypes
          finalTypes thr rest
        (Ev.rebuild block.id actualReturnType :: r.1, r.2)
    | none =>
      processReturnsChangedEvLoop userCanChangeCallType initialTypes finalTypes
        thr rest

/-- Event trace of processProcedureReturnsChanged_ (newFile.js:55-121):
Events.setGroup(true), the rewrite loop, Events.setGroup(false) — the last
reached only when no rewrite throws, since the source wraps the loop in no
try/finally — then the optional toolbox refresh. -/
def processReturnsChangedEv (userCanChangeCallType : Bool)
    (initialTypes : TypeMap) (workspace : Workspace) (thr : Nat → Bool) :
    List Ev × Bool :=
  let finalTypes := getAllProcedureReturnTypes workspace
  let r := processReturnsChangedEvLoop userCanChangeCallType initialTypes
    finalTypes thr workspace.getTopBlocks
  if r.2 then (Ev.groupStart :: r.1, true)
  else
    (Ev.groupStart :: r.1 ++ [Ev.groupEnd] ++
      (if toolboxOutdated initialTypes finalTypes then [Ev.refreshToolbox] else []),
     false)

/-- The caller loop of Blockly.Procedures.mutateCallersAndPrototype
(part_000:385-402) as an event trace: thr id true when domToMutation on the
block with that id throws, chg id true when the serialized mutation of that
block actually changed (a BlockChange event fires exactly then). -/
def mutateCallersAndPrototypeEvLoop (thr chg : Nat → Bool) :
    List Block → List Ev × Bool
  | [] => ([], false)
  | caller :: rest =>
    if thr caller.id then ([], true)
    else
      let r := mutateCallersAndPrototypeEvLoop thr chg rest
      ((if chg caller.id then [Ev.blockChange caller.id] else []) ++ r.1, r.2)

/-- Event trace of Blockly.Procedures.mutateCallersAndPrototype
(part_000:377-407): when the define and prototype blocks are found, the
callers (recursive ones included) plus the prototype are mutated between
Events.setGroup(true) and Events.setGroup(false); the loop has no
try/finally, so a throw escapes before the closing marker.  The alert
branch emits nothing. -/
def mutateCallersAndPrototypeEv (name : String) (ws : Workspace)
    (thr chg : Nat → Bool) : List Ev × Bool :=
  match getDefineBlock name ws, getPrototypeBlock name ws with
  | some defineBlock, some prototypeBlock =>
    let callers := getCallers name ws defineBlock.id true ++ [prototypeBlock]
    let r := mutateCallersAndPrototypeEvLoop thr chg callers
    if r.2 then (Ev.groupStart :: r.1, true)
    else (Ev.groupStart :: r.1 ++ [Ev.groupEnd], false)
  | _, _ => ([], false)

/-- Event trace of the callback of Blockly.Procedures.makeChangeTypeOption
(part_000:600-646): the new type is computed from the current shape and the
inferred definition type, then changeReturnType runs between
Events.setGroup(true) and, thanks to the try/finally of part_000:622-645,
an Events.setGroup(false) that fires even when the rebuild throws. -/
def makeChangeTypeOptionEv (block : Block) (ws : Workspace)
    (thr : Nat → Bool) : List Ev × Bool :=
  let isStatement := block.returnType == PROCEDURES_CALL_TYPE_STATEMENT
  let newType :=
    if isStatement then
      let actualReturnType := getProcedureReturnType ((block.procCode).getD "") ws
      if actualReturnType == PROCEDURES_CALL_TYPE_BOOLEAN then actualReturnType
      else PROCEDURES_CALL_TYPE_REPORTER
    else PROCEDURES_CALL_TYPE_STATEMENT
  if thr block.id then ([Ev.groupStart, Ev.groupEnd], true)
  else ([Ev.groupStart, Ev.rebuild block.id newType, Ev.groupEnd], false)

/-! ## Flyout category -/

/-- A flyout descriptor of the procedure category: an action button (by its
callback key), a call-site template carrying its proccode and optional
return annotation, or the return-value template block. -/
inductive FlyoutEl where
  | button (callbackKey : String)
  | callBlock (procCode : String) (returnAttr : Option Nat)
  | returnBlock
  deriving DecidableEq, Repr

/-- Blockly.Procedures.allProcedureMutations (part_000:83-95): one mutation
per prototype block of the workspace; a mutation is represented by its
proccode attribute, the only part the flyout builder reads. -/
def allProcedureMutations (root : Workspace) : List String :=
  root.getAllBlocks.filterMap (fun block =>
    if block.btype == PROCEDURES_PROTOTYPE_BLOCK_TYPE then block.procCode
    else none)

/-- Lexicographic comparison of character lists, not-greater-than. -/
def leChars : List Char → List Char → Bool
  | [], _ => true
  | _ :: _, [] => false
  | a :: as, b :: bs => if a = b then leChars as bs else decide (a < b)

/-- Modelled from the spec: Blockly.scratchBlocksUtils.compareStrings
(outside src/), the case/locale-insensitive comparator used for sorting,
modelled as lexicographic comparison of the lowercased strings. -/
def compareStringsLe (a b : String) : Bool :=
  leChars (lowercase a).data (lowercase b).data

/-- Insert a string into a list sorted by compareStringsLe, before any
element it compares not-greater than (hence stably). -/
def insertSorted (a : String) : List String → List String
  | [] => [a]
  | b :: bs => if compareStringsLe a b then a :: b :: bs else b :: insertSorted a bs

/-- Blockly.Procedures.sortProcedureMutations_ (part_000:104-115): stable
sort of the mutations by compareStrings on their proccode, modelled as
insertion sort. -/
def sortProcedureMutations_ (mutations : List String) : List String :=
  mutations.foldr insertSorted []

/-- The two process-wide toggles of part_000:730-742 that the flyout builder
and the reconciler read. -/
structure ProceduresConfig where
  /-- Blockly.Procedures.USER_CAN_CHANGE_CALL_TYPE -/
  userCanChangeCallType : Bool
  /-- Blockly.Procedures.DEFAULT_ENABLE_RETURNS -/
  defaultEnableReturns : Bool

/-- Blockly.Procedures.flyoutCategory (part_000:221-310): the create button
is pushed first (part_000:224), one call template per sorted mutation is
appended (part_000:229-260), and when showReturn holds (part_000:262-266)
the return template block and then the return-docs button are unshifted to
the FRONT of the list (part_000:283-307). -/
def flyoutCategory (cfg : ProceduresConfig) (workspace : Workspace) :
    List FlyoutEl :=
  let xmlList := [FlyoutEl.button "CREATE_PROCEDURE"]
  let mutations := sortProcedureMutations_ (allProcedureMutations workspace)
  let callBlocks := mutations.map (fun procCode =>
    let returnType := getProcedureReturnType procCode workspace
    FlyoutEl.callBlock procCode
      (if returnType != PROCEDURES_CALL_TYPE_STATEMENT then some returnType
       else none))
  let xmlList := xmlList ++ callBlocks
  let showReturn :=
    if cfg.defaultEnableReturns then decide (mutations.length > 0)
    else workspace.procedureReturnsEnabled
  if showReturn then
    FlyoutEl.button "OPEN_RETURN_DOCS" :: FlyoutEl.returnBlock :: xmlList
  else xmlList

/-! ## Concrete scenario objects -/

/-- A workspace with no blocks. -/
def wsEmpty : Workspace := ⟨[], false⟩

/-- A prototype-like block exposing getProcedureDef and getProcCode with the
given name. -/
def procDefBlock (id : Nat) (name : String) : Block :=
  .node ⟨id, PROCEDURES_PROTOTYPE_BLOCK_TYPE, 0, some name, some name, 0,
    false, false, false⟩ [] none

/-- A featureless block outside any flyout. -/
def plainBlock (id : Nat) : Block :=
  .node ⟨id, "plain", 0, none, none, 0, false, false, false⟩ [] none

/-- A call-site block with the given procCode, cached return type and
insertion-marker flag; call blocks expose renameProcedure. -/
def callSiteBlock (id : Nat) (procCode : String) (returnType : Nat)
    (marker : Bool) : Block :=
  .node ⟨id, PROCEDURES_CALL_BLOCK_TYPE, 0, some procCode, none, returnType,
    marker, false, true⟩ [] none

/-- A prototype block nested in a definition block. -/
def prototypeBlockOf (id : Nat) (procCode : String) : Block :=
  .node ⟨id, PROCEDURES_PROTOTYPE_BLOCK_TYPE, 0, some procCode, some procCode,
    0, false, false, false⟩ [] none

/-- A definition block: the prototype is the target of the custom_block
input, the body hangs below the definition block. -/
def definitionBlockOf (id protoId : Nat) (procCode : String)
    (body : Option Block) : Block :=
  .node ⟨id, PROCEDURES_DEFINITION_BLOCK_TYPE, 0, none, none, 0, false, false,
    false⟩ [prototypeBlockOf protoId procCode] body

/-- A round (generic reporter) expression block. -/
def reporterLiteral (id : Nat) : Block :=
  .node ⟨id, "math_number", OUTPUT_SHAPE_ROUND, none, none, 0, false, false,
    false⟩ [] none

/-- A hexagonal (boolean) expression block. -/
def booleanLiteral (id : Nat) : Block :=
  .node ⟨id, "operator_boolean", OUTPUT_SHAPE_HEXAGONAL, none, none, 0, false,
    false, false⟩ [] none

/-- A return-statement block with the given value input and chained block. -/
def returnBlockOf (id : Nat) (value : Block) (next : Option Block) : Block :=
  .node ⟨id, PROCEDURES_RETURN_BLOCK_TYPE, 0, none, none, 0, false, false,
    false⟩ [value] next

/-- Definition of p whose body is return(42). -/
def defReturn42 : Block :=
  definitionBlockOf 1 2 "p" (some (returnBlockOf 3 (reporterLiteral 4) none))

/-- Definition of p with an empty body. -/
def defEmptyBody : Block := definitionBlockOf 1 2 "p" none

/-- Definition of p whose body is return(trueLiteral). -/
def defReturnTrue : Block :=
  definitionBlockOf 1 2 "p" (some (returnBlockOf 3 (booleanLiteral 4) none))

/-- Definition of p whose body is return(trueLiteral) followed by
return(textLiteral). -/
def defReturnTrueThenText : Block :=
  definitionBlockOf 1 2 "p"
    (some (returnBlockOf 3 (booleanLiteral 4)
      (some (returnBlockOf 5 (reporterLiteral 6) none))))

/-- A workspace holding one definition named foo. -/
def wsOneFoo : Workspace := ⟨[procDefBlock 1 "foo"], false⟩

/-- Workspace with the reporter definition of p and a statement-shaped
top-level call site of p. -/
def wsReconcile : Workspace :=
  ⟨[defReturn42, callSiteBlock 9 "p" PROCEDURES_CALL_TYPE_STATEMENT false],
   false⟩

/-- Workspace with only the reporter definition of p. -/
def wsDefOnly : Workspace := ⟨[defReturn42], false⟩

/-- Rename scenario A: the definition being renamed is foo, another
definition is called foo2, and a call block supports renameProcedure. -/
def wsRenameA : Workspace :=
  ⟨[procDefBlock 1 "foo", procDefBlock 2 "foo2", callSiteBlock 3 "foo" 0 false],
   false⟩

/-- Rename scenario B: the definition being renamed is foo, another
definition is called bar, and a call block supports renameProcedure. -/
def wsRenameB : Workspace :=
  ⟨[procDefBlock 1 "foo", procDefBlock 2 "bar", callSiteBlock 3 "foo" 0 false],
   false⟩

/-- A workspace whose only block is a top-level insertion-marker call of p. -/
def wsMarkerCaller : Workspace := ⟨[callSiteBlock 8 "p" 0 true], false⟩

/-- A workspace with one statement-typed definition of p. -/
def wsOneStatementDef : Workspace := ⟨[defEmptyBody], false⟩

/-- A workspace with two definition stacks for the same procCode p. -/
def wsDuplicateDefs : Workspace :=
  ⟨[defEmptyBody, definitionBlockOf 11 12 "p" none], false⟩

/-! ## Observations used to state the claims -/

/-- Whether a descendant list contains a return-statement block. -/
def containsReturn (l : List Block) : Bool :=
  l.any (fun b => b.btype == PROCEDURES_RETURN_BLOCK_TYPE)

/-- Whether some return-statement block of the descendant list is followed
immediately by no block at all or by a non-hexagonal block. -/
def containsNonBooleanReturn : List Block → Bool
  | [] => false
  | b :: rest =>
    (b.btype == PROCEDURES_RETURN_BLOCK_TYPE &&
      (match rest with
       | nextDescendant :: _ =>
         !(nextDescendant.outputShape == OUTPUT_SHAPE_HEXAGONAL)
       | [] => true)) || containsNonBooleanReturn rest

/-! ## Helper lemmas -/

/-- On the empty workspace no name is ever accepted by isLegalName_,
because the inverted isNameUsed reports an unused name as used. -/
theorem isLegalName_wsEmpty (name : String) (optExclude : Option Nat) :
    isLegalName_ name wsEmpty optExclude = false := rfl

/-- The fuelled while loop of findLegalName never exits on the empty
workspace. -/
theorem findLegalNameLoop_wsEmpty (blockId : Nat) :
    ∀ (fuel : Nat) (name : String),
      findLegalNameLoop wsEmpty blockId fuel name = none := by
  intro fuel
  induction fuel with
  | zero => intro name; rfl
  | succ n ih =>
    intro name
    rw [findLegalNameLoop, isLegalName_wsEmpty]
    simpa using ih (incrementName name)

/-- The classification computed by the scan of getBlockReturnType, phrased
by the two observations on the remaining descendant list. -/
theorem getBlockReturnTypeScan_eq :
    ∀ (l : List Block) (seen : Bool),
      getBlockReturnTypeScan l seen =
        if containsNonBooleanReturn l then PROCEDURES_CALL_TYPE_REPORTER
        else if containsReturn l || seen then PROCEDURES_CALL_TYPE_BOOLEAN
        else PROCEDURES_CALL_TYPE_STATEMENT := by
  intro l
  induction l with
  | nil =>
    intro seen
    cases seen <;>
      simp [getBlockReturnTypeScan, containsNonBooleanReturn, containsReturn]
  | cons b rest ih =>
    intro seen
    by_cases hb : b.btype == PROCEDURES_RETURN_BLOCK_TYPE
    · cases rest with
      | nil => simp [getBlockReturnTypeScan, hb, containsNonBooleanReturn]
      | cons nx rest2 =>
        by_cases hx : nx.outputShape == OUTPUT_SHAPE_HEXAGONAL
        · have h1 : getBlockReturnTypeScan (b :: nx :: rest2) seen =
              getBlockReturnTypeScan (nx :: rest2) true := by
            conv_lhs => rw [getBlockReturnTypeScan]
            simp [hb, hx]
          rw [h1, ih true]
          simp [containsNonBooleanReturn, containsReturn, hb, hx]
        · simp [getBlockReturnTypeScan, hb, hx, containsNonBooleanReturn]
    · simp [getBlockReturnTypeScan, hb, ih, containsNonBooleanReturn,
        containsReturn]

/-- Characterization of the guard chain of the reconciliation loop: a call
block is rewritten (to some type) exactly when every guard passes. -/
theorem callRewriteType_eq_some_iff (u : Bool) (i f : TypeMap)
    (block : Block) (t : Nat) :
    callRewriteType u i f block = some t ↔
      block.btype = PROCEDURES_CALL_BLOCK_TYPE ∧
      block.isInsertionMarker = false ∧ block.next = none ∧
      ∃ pc ti, block.procCode = some pc ∧ lookupType i pc = some ti ∧
        lookupType f pc = some t ∧ block.returnType ≠ t ∧
        (u = false ∨ ti ≠ t) := by
  by_cases h1 : block.btype = PROCEDURES_CALL_BLOCK_TYPE
  · by_cases h2 : block.isInsertionMarker
    · simp [callRewriteType, h1, h2]
    · by_cases h3 : block.next.isSome
      · have hne : block.next ≠ none := by
          intro hn; rw [hn] at h3; simp at h3
        simp [callRewriteType, h1, h2, h3, hne]
      · have hnext : block.next = none := Option.not_isSome_iff_eq_none.mp h3
        have h2f : block.isInsertionMarker = false := by simpa using h2
        rcases hpc : block.procCode with _ | pc
        · simp [callRewriteType, h1, h2, h3, hpc]
        · rcases hti : lookupType i pc with _ | ti
          · simp [callRewriteType, h1, h2, h3, hpc, hti]
          · rcases htf : lookupType f pc with _ | tf
            · simp [callRewriteType, h1, h2, h3, hpc, hti, htf]
            · have key : callRewriteType u i f block =
                  (if block.returnType != tf && (!u || ti != tf) then some tf
                   else none) := by
                simp [callRewriteType, h1, h2, h3, hpc, hti, htf]
              rw [key]
              by_cases hcnd : (block.returnType != tf && (!u || ti != tf)) = true
              · rw [if_pos hcnd]
                have hc := hcnd
                rw [Bool.and_eq_true, bne_iff_ne, Bool.or_eq_true,
                  Bool.not_eq_true', bne_iff_ne] at hc
                constructor
                · intro h
                  rw [Option.some_inj] at h
                  subst h
                  exact ⟨h1, h2f, hnext, pc, ti, rfl, hti, htf, hc.1, hc.2⟩
                · rintro ⟨-, -, -, pc2, ti2, hpc2, hti2, htf2, -, -⟩
                  rw [Option.some_inj] at hpc2
                  subst hpc2
                  rw [htf] at htf2
                  exact htf2
              · rw [if_neg hcnd]
                constructor
                · intro h; cases h
                · rintro ⟨-, -, -, pc2, ti2, hpc2, hti2, htf2, hr, ho⟩
                  rw [Option.some_inj] at hpc2
                  subst hpc2
                  rw [hti, Option.some_inj] at hti2
                  subst hti2
                  rw [htf, Option.some_inj] at htf2
                  subst htf2
                  refine absurd ?_ hcnd
                  rw [Bool.and_eq_true, bne_iff_ne, Bool.or_eq_true,
                    Bool.not_eq_true', bne_iff_ne]
                  exact ⟨hr, ho⟩
  · simp [callRewriteType, h1]

/-- The toolbox staleness test holds exactly when some procCode has a
binding in both snapshots and the two bindings differ. -/
theorem toolboxOutdated_iff (i f : TypeMap) :
    toolboxOutdated i f = true ↔
      ∃ pc ti tf, lookupType i pc = some ti ∧ lookupType f pc = some tf ∧
        ti ≠ tf := by
  rw [toolboxOutdated, List.any_eq_true]
  constructor
  · rintro ⟨kv, hmem, hcond⟩
    rw [Bool.and_eq_true] at hcond
    have h1 := hcond.1
    rw [hasOwnProp] at h1
    obtain ⟨ti, hti⟩ := Option.isSome_iff_exists.mp h1
    have hfs : (lookupType f kv.1).isSome = true := by
      rw [lookupType, Option.isSome_map']
      exact List.find?_isSome.mpr ⟨kv, hmem, by simp⟩
    obtain ⟨tf, htf⟩ := Option.isSome_iff_exists.mp hfs
    refine ⟨kv.1, ti, tf, hti, htf, ?_⟩
    intro h
    have hd := bne_iff_ne.mp hcond.2
    rw [hti, htf, h] at hd
    exact hd rfl
  · rintro ⟨pc, ti, tf, hti, htf, hne⟩
    have hfsome : (f.find? (fun kv => kv.1 == pc)).isSome = true := by
      rw [lookupType] at htf
      cases hf : f.find? (fun kv => kv.1 == pc) with
      | none => rw [hf] at htf; simp at htf
      | some kv => rfl
    obtain ⟨kv, hkv⟩ := Option.isSome_iff_exists.mp hfsome
    have hkey : kv.1 = pc := by simpa using List.find?_some hkv
    refine ⟨kv, List.mem_of_find?_eq_some hkv, ?_⟩
    rw [Bool.and_eq_true]
    refine ⟨?_, ?_⟩
    · rw [hasOwnProp, hkey, hti]; rfl
    · rw [hkey, bne_iff_ne, hti, htf]
      simp [hne]

/-! ## Claim theorems -/

/-- C1: the claim states that isLegalName_ holds exactly when no other
definition block carries the same name under case-insensitive comparison.
The code computes the opposite: on a workspace whose single block is a
definition named foo, isLegalName_ accepts the colliding name foo and
rejects the collision-free name bar, because isNameUsed (part_000:174-189)
returns false on finding a match and true at the end of the scan,
contradicting its own doc comment. -/
theorem claim_C1 :
    isLegalName_ "foo" wsOneFoo none = true ∧
    wsOneFoo.getAllBlocks.map Block.procDefName = [some "foo"] ∧
    namesEquals "foo" "foo" = true ∧
    isLegalName_ "bar" wsOneFoo none = false := by decide

/-- C2: the claim states that findLegalName terminates and returns a name
accepted by the legality check.  Because of the inverted isNameUsed, the
while loop of part_000:140-148 exits only when the current candidate
collides with an existing definition; for a non-flyout block on a workspace
with no blocks at all the loop keeps incrementing the suffix forever, so
the fuelled translation returns none for every fuel bound. -/
theorem claim_C2 :
    ∀ fuel : Nat, findLegalName fuel "foo" (plainBlock 5) wsEmpty = none := by
  intro fuel
  rw [findLegalName]
  simpa [plainBlock, Block.isInFlyout, Block.data] using
    findLegalNameLoop_wsEmpty (plainBlock 5).id fuel "foo"

/-- C3: in a reconciliation pass every top-level block goes through
processReturnsTop, and a top-level call-site block whose procCode has a
binding tf in the recomputed final snapshot is rewritten to tf exactly when
it is of call type, is no insertion marker, has no chained block beneath
it, its procCode also has a binding in the initial snapshot, its cached
returnType differs from tf, and the user-override toggle is off or the
initial binding differs from tf; in every other case (including a procCode
absent from either snapshot) the block is left unchanged. -/
theorem claim_C3 (u : Bool) (initialTypes : TypeMap) (ws : Workspace) :
    (processProcedureReturnsChanged u initialTypes ws).1.topBlocks =
      ws.topBlocks.map
        (processReturnsTop u initialTypes (getAllProcedureReturnTypes ws)) ∧
    (∀ (block : Block) (pc : String) (tf : Nat),
      block.procCode = some pc →
      lookupType (getAllProcedureReturnTypes ws) pc = some tf →
      ((block.btype = PROCEDURES_CALL_BLOCK_TYPE ∧
        block.isInsertionMarker = false ∧ block.next = none ∧
        (∃ ti, lookupType initialTypes pc = some ti) ∧
        block.returnType ≠ tf ∧
        (u = false ∨ lookupType initialTypes pc ≠ some tf)) →
        processReturnsTop u initialTypes (getAllProcedureReturnTypes ws) block =
          changeReturnType block tf) ∧
      (¬(block.btype = PROCEDURES_CALL_BLOCK_TYPE ∧
        block.isInsertionMarker = false ∧ block.next = none ∧
        (∃ ti, lookupType initialTypes pc = some ti) ∧
        block.returnType ≠ tf ∧
        (u = false ∨ lookupType initialTypes pc ≠ some tf)) →
        processReturnsTop u initialTypes (getAllProcedureReturnTypes ws) block =
          block)) ∧
    (∀ block : Block,
      (∀ pc, block.procCode = some pc →
        lookupType initialTypes pc = none ∨
        lookupType (getAllProcedureReturnTypes ws) pc = none) →
      processReturnsTop u initialTypes (getAllProcedureReturnTypes ws) block =
        block) := by
  refine ⟨rfl, ?_, ?_⟩
  · intro block pc tf hpc htf
    constructor
    · rintro ⟨hb, hm, hn, ⟨ti, hti⟩, hrt, hu⟩
      have hcond : u = false ∨ ti ≠ tf := by
        rcases hu with h | h
        · exact Or.inl h
        · exact Or.inr (fun he => h (by rw [hti, he]))
      have hct : callRewriteType u initialTypes
          (getAllProcedureReturnTypes ws) block = some tf :=
        (callRewriteType_eq_some_iff _ _ _ _ _).mpr
          ⟨hb, hm, hn, pc, ti, hpc, hti, htf, hrt, hcond⟩
      simp only [processReturnsTop, hct]
    · intro hnot
      cases hct : callRewriteType u initialTypes
          (getAllProcedureReturnTypes ws) block with
      | none => simp only [processReturnsTop, hct]
      | some t =>
        obtain ⟨hb, hm, hn, pc2, ti, hpc2, hti, htf2, hrt, hu⟩ :=
          (callRewriteType_eq_some_iff _ _ _ _ _).mp hct
        rw [hpc, Option.some_inj] at hpc2
        subst hpc2
        rw [htf, Option.some_inj] at htf2
        subst htf2
        exfalso
        refine hnot ⟨hb, hm, hn, ⟨ti, hti⟩, hrt, ?_⟩
        rcases hu with h | h
        · exact Or.inl h
        · refine Or.inr (fun he => ?_)
          rw [hti, Option.some_inj] at he
          exact h he
  · intro block hmiss
    cases hct : callRewriteType u initialTypes
        (getAllProcedureReturnTypes ws) block with
    | none => simp only [processReturnsTop, hct]
    | some t =>
      obtain ⟨-, -, -, pc, ti, hpc, hti, htf, -, -⟩ :=
        (callRewriteType_eq_some_iff _ _ _ _ _).mp hct
      rcases hmiss pc hpc with h | h
      · rw [h] at hti; cases hti
      · rw [h] at htf; cases htf

/-- Witness for C3: in the concrete reconciliation scenario the
statement-shaped top-level call of p is rewritten to REPORTER. -/
theorem claim_C3_witness :
    processReturnsTop false [("p", PROCEDURES_CALL_TYPE_STATEMENT)]
        (getAllProcedureReturnTypes wsReconcile)
        (callSiteBlock 9 "p" PROCEDURES_CALL_TYPE_STATEMENT false) =
      changeReturnType
        (callSiteBlock 9 "p" PROCEDURES_CALL_TYPE_STATEMENT false)
        PROCEDURES_CALL_TYPE_REPORTER :=
  ((claim_C3 false [("p", PROCEDURES_CALL_TYPE_STATEMENT)] wsReconcile).2.1
      (callSiteBlock 9 "p" PROCEDURES_CALL_TYPE_STATEMENT false) "p"
      PROCEDURES_CALL_TYPE_REPORTER (by decide) (by decide)).1
    ⟨by decide, by decide, rfl,
     ⟨PROCEDURES_CALL_TYPE_STATEMENT, by decide⟩, by decide, Or.inl rfl⟩

/-- C4: the toolbox-refresh signal is requested by the reconciliation pass
exactly when some procCode bound in both the initial and the recomputed
final snapshot changed type between the two. -/
theorem claim_C4 (u : Bool) (initialTypes : TypeMap) (ws : Workspace) :
    (processProcedureReturnsChanged u initialTypes ws).2 = true ↔
      ∃ pc ti tf, lookupType initialTypes pc = some ti ∧
        lookupType (getAllProcedureReturnTypes ws) pc = some tf ∧ ti ≠ tf :=
  toolboxOutdated_iff initialTypes (getAllProcedureReturnTypes ws)

/-- Witness for C4: the refresh fires when the only procedure changed from
STATEMENT to REPORTER. -/
theorem claim_C4_witness :
    (processProcedureReturnsChanged true
      [("p", PROCEDURES_CALL_TYPE_STATEMENT)] wsReconcile).2 = true :=
  (claim_C4 true [("p", PROCEDURES_CALL_TYPE_STATEMENT)] wsReconcile).mpr
    ⟨"p", PROCEDURES_CALL_TYPE_STATEMENT, PROCEDURES_CALL_TYPE_REPORTER,
      by decide, by decide, by decide⟩

/-- C5: getBlockReturnType classifies the pre-order descendant walk of a
definition exactly as claimed: REPORTER when some return-statement block is
followed by no descendant or a non-hexagonal one, otherwise BOOLEAN when a
return-statement block exists (all of them then followed by hexagonal
descendants), otherwise STATEMENT; the four scenario bodies evaluate to
REPORTER, STATEMENT, BOOLEAN and REPORTER, and getProcedureReturnType of a
procCode with no definition block is STATEMENT. -/
theorem claim_C5 :
    (∀ block : Block,
      getBlockReturnType block =
        if containsNonBooleanReturn (getDescendants block) then
          PROCEDURES_CALL_TYPE_REPORTER
        else if containsReturn (getDescendants block) then
          PROCEDURES_CALL_TYPE_BOOLEAN
        else PROCEDURES_CALL_TYPE_STATEMENT) ∧
    getBlockReturnType defReturn42 = PROCEDURES_CALL_TYPE_REPORTER ∧
    getBlockReturnType defEmptyBody = PROCEDURES_CALL_TYPE_STATEMENT ∧
    getBlockReturnType defReturnTrue = PROCEDURES_CALL_TYPE_BOOLEAN ∧
    getBlockReturnType defReturnTrueThenText = PROCEDURES_CALL_TYPE_REPORTER ∧
    getProcedureReturnType "p" wsEmpty = PROCEDURES_CALL_TYPE_STATEMENT := by
  refine ⟨fun block => ?_, by decide, by decide, by decide, by decide, by decide⟩
  rw [getBlockReturnType, getBlockReturnTypeScan_eq]
  simp

/-- C6: deleteProcedureDefCallback returns false and performs no mutation
(workspace unchanged, nothing emitted) whenever getCallers with
allowRecursive false is non-empty; otherwise it returns true, removes the
definition stack, and emits the disposal inside exactly one change group
followed by the toolbox-refresh signal. -/
theorem claim_C6 (procCode : String) (definitionRoot : Block)
    (ws : Workspace) :
    (getCallers procCode ws definitionRoot.id false ≠ [] →
      deleteProcedureDefCallback procCode definitionRoot ws =
        (false, ws, [])) ∧
    (getCallers procCode ws definitionRoot.id false = [] →
      deleteProcedureDefCallback procCode definitionRoot ws =
        (true,
         { ws with topBlocks :=
            ws.topBlocks.filter (fun b => b.id != definitionRoot.id) },
         [Ev.groupStart, Ev.disposeStack definitionRoot.id, Ev.groupEnd,
          Ev.refreshToolbox])) := by
  constructor
  · intro h
    rw [deleteProcedureDefCallback, if_pos (List.length_pos.mpr h)]
  · intro h
    rw [deleteProcedureDefCallback, if_neg]
    rw [h]
    simp

/-- Witness for C6: deletion is refused while the call of p exists, and
succeeds on the workspace holding only the definition stack. -/
theorem claim_C6_witness :
    (deleteProcedureDefCallback "p" defReturn42 wsReconcile).1 = false ∧
    (deleteProcedureDefCallback "p" defReturn42 wsDefOnly).1 = true := by
  constructor
  · rw [(claim_C6 "p" defReturn42 wsReconcile).1
      (fun h => absurd (congrArg (List.map Block.id) h) (by decide))]
  · rw [(claim_C6 "p" defReturn42 wsDefOnly).2 rfl]

/-- C7 counterexample: the claim states that whenever the accepted name
differs from the old name every supporting block receives renameProcedure,
emitted inside exactly one change group.  In scenario A the proposed name
equals the old name foo while another definition is named foo2; the
(inverted) legality loop accepts foo2, so the accepted name differs from
the old one, yet no renameProcedure is invoked, because part_000:204 also
requires the proposed name to differ from the old one.  In scenario B the
rename does propagate (to block 3), but the emitted group-marker trace is
empty: part_000:197-214 contains no Events.setGroup call at all. -/
theorem claim_C7_counterexample :
    rename 10 "foo" "foo" (procDefBlock 1 "foo") wsRenameA =
      some ("foo2", [], []) ∧
    (wsRenameA.getAllBlocks.filter (fun b => b.hasRenameProcedure)).map
      Block.id = [3] ∧
    ("foo2" ≠ "foo") ∧
    rename 10 "bar" "foo" (procDefBlock 1 "foo") wsRenameB =
      some ("bar", [3], []) := by decide

/-- C7 amended: rename strips surrounding whitespace from the proposed
name and computes the legal name via findLegalName; it invokes
renameProcedure on every block of the workspace that supports it exactly
when both the stripped proposed name and the computed legal name differ
from the old name, and it emits no change-group markers of its own. -/
theorem claim_C7_amended (fuel : Nat) (proposedName oldName : String)
    (block : Block) (ws : Workspace) (legalName : String)
    (renamedIds : List Nat) (evs : List Ev) :
    rename fuel proposedName oldName block ws =
      some (legalName, renamedIds, evs) →
    findLegalName fuel (stripProcedureName proposedName) block ws =
      some legalName ∧
    renamedIds =
      (if oldName != stripProcedureName proposedName && oldName != legalName
       then (ws.getAllBlocks.filter (fun b => b.hasRenameProcedure)).map
         Block.id
       else []) ∧
    evs = [] := by
  intro h
  rw [rename] at h
  cases hf : findLegalName fuel (stripProcedureName proposedName) block ws with
  | none => rw [hf] at h; cases h
  | some ln =>
    rw [hf] at h
    dsimp only at h
    by_cases hc : (oldName != stripProcedureName proposedName &&
        oldName != ln) = true
    · rw [if_pos hc] at h
      injection h with h
      rw [Prod.mk.injEq] at h
      obtain ⟨h1, h2⟩ := h
      rw [Prod.mk.injEq] at h2
      obtain ⟨h2, h3⟩ := h2
      subst h1
      exact ⟨rfl, by rw [if_pos hc]; exact h2.symm, h3.symm⟩
    · rw [if_neg hc] at h
      injection h with h
      rw [Prod.mk.injEq] at h
      obtain ⟨h1, h2⟩ := h
      rw [Prod.mk.injEq] at h2
      obtain ⟨h2, h3⟩ := h2
      subst h1
      exact ⟨rfl, by rw [if_neg hc]; exact h2.symm, h3.symm⟩

/-- Totality of the lexicographic comparison. -/
theorem leChars_total : ∀ as bs : List Char,
    leChars as bs = true ∨ leChars bs as = true := by
  intro as
  induction as with
  | nil => intro bs; exact Or.inl rfl
  | cons a as ih =>
    intro bs
    cases bs with
    | nil => exact Or.inr rfl
    | cons b bs2 =>
      by_cases hab : a = b
      · subst hab
        rcases ih bs2 with h | h
        · exact Or.inl (by simp [leChars, h])
        · exact Or.inr (by simp [leChars, h])
      · rcases lt_trichotomy a b with h | h | h
        · exact Or.inl (by simp [leChars, hab, h])
        · exact absurd h hab
        · exact Or.inr (by simp [leChars, Ne.symm hab, h])

/-- Transitivity of the lexicographic comparison. -/
theorem leChars_trans : ∀ as bs cs : List Char,
    leChars as bs = true → leChars bs cs = true → leChars as cs = true := by
  intro as
  induction as with
  | nil => intro bs cs h1 h2; rfl
  | cons a as ih =>
    intro bs cs h1 h2
    cases bs with
    | nil => simp [leChars] at h1
    | cons b bs2 =>
      cases cs with
      | nil => simp [leChars] at h2
      | cons c cs2 =>
        by_cases hab : a = b
        · subst hab
          by_cases hbc : a = c
          · subst hbc
            simp only [leChars, if_pos rfl] at h1 h2 ⊢
            exact ih bs2 cs2 h1 h2
          · simp [leChars, hbc] at h2 ⊢
            exact h2
        · by_cases hbc : b = c
          · subst hbc
            simp [leChars, hab] at h1 ⊢
            exact h1
          · simp [leChars, hab] at h1
            simp [leChars, hbc] at h2
            have hac : a < c := lt_trans h1 h2
            simp [leChars, ne_of_lt hac, hac]

/-- Totality of the modelled comparator. -/
theorem compareStringsLe_total (a b : String) :
    compareStringsLe a b = true ∨ compareStringsLe b a = true :=
  leChars_total _ _

/-- Transitivity of the modelled comparator. -/
theorem compareStringsLe_trans {a b c : String} :
    compareStringsLe a b = true → compareStringsLe b c = true →
    compareStringsLe a c = true :=
  leChars_trans _ _ _

/-- Membership through insertSorted. -/
theorem mem_insertSorted (y a : String) :
    ∀ l : List String, y ∈ insertSorted a l ↔ y = a ∨ y ∈ l := by
  intro l
  induction l with
  | nil => simp [insertSorted]
  | cons b bs ih =>
    by_cases h : compareStringsLe a b = true
    · simp [insertSorted, h, List.mem_cons]
    · simp [insertSorted, h, List.mem_cons, ih]
      tauto

/-- insertSorted preserves sortedness with respect to the comparator. -/
theorem pairwise_insertSorted (a : String) :
    ∀ l : List String,
      l.Pairwise (fun x y => compareStringsLe x y = true) →
      (insertSorted a l).Pairwise (fun x y => compareStringsLe x y = true) := by
  intro l
  induction l with
  | nil => intro _; simp [insertSorted]
  | cons b bs ih =>
    intro h
    rw [List.pairwise_cons] at h
    obtain ⟨hb, hbs⟩ := h
    by_cases hc : compareStringsLe a b = true
    · rw [insertSorted, if_pos hc, List.pairwise_cons]
      refine ⟨?_, List.pairwise_cons.mpr ⟨hb, hbs⟩⟩
      intro y hy
      rcases List.mem_cons.mp hy with rfl | hy2
      · exact hc
      · exact compareStringsLe_trans hc (hb y hy2)
    · rw [insertSorted, if_neg hc, List.pairwise_cons]
      refine ⟨?_, ih hbs⟩
      intro y hy
      rcases (mem_insertSorted y a bs).mp hy with rfl | hy2
      · exact (compareStringsLe_total y b).resolve_left hc
      · exact hb y hy2

/-- The sorted mutation list is pairwise ordered by the comparator. -/
theorem sortProcedureMutations_pairwise (l : List String) :
    (sortProcedureMutations_ l).Pairwise
      (fun x y => compareStringsLe x y = true) := by
  induction l with
  | nil => simp [sortProcedureMutations_]
  | cons x xs ih => exact pairwise_insertSorted x _ ih

/-- C8 counterexample: the claim puts the create-new-procedure action
first, includes the return material whenever returns are globally enabled,
and lists one call template per distinct procCode.  In the code the
return-docs button and the return template are unshifted to the FRONT of
the list (part_000:283-307), so the head of the list is the docs button and
not the create button; with the always-enable toggle set and no procedures
the return material is absent although returns are enabled
(part_000:262-266 requires a nonempty mutation list in that mode); and with
two definition stacks of the same procCode two call templates appear. -/
theorem claim_C8_counterexample :
    (flyoutCategory ⟨true, true⟩ wsOneStatementDef).head? ≠
      some (FlyoutEl.button "CREATE_PROCEDURE") ∧
    flyoutCategory ⟨true, true⟩ wsOneStatementDef =
      [FlyoutEl.button "OPEN_RETURN_DOCS", FlyoutEl.returnBlock,
       FlyoutEl.button "CREATE_PROCEDURE", FlyoutEl.callBlock "p" none] ∧
    flyoutCategory ⟨true, true⟩ wsEmpty = [FlyoutEl.button "CREATE_PROCEDURE"] ∧
    flyoutCategory ⟨true, false⟩ wsDuplicateDefs =
      [FlyoutEl.button "CREATE_PROCEDURE", FlyoutEl.callBlock "p" none,
       FlyoutEl.callBlock "p" none] := by decide

/-- C8 amended: the category list consists of, in order, the
how-to-use-return help button and the return template (present exactly
when, with the always-enable-returns toggle set, at least one procedure
mutation exists, and otherwise when the workspace returns-enabled flag is
set), then the create-new-procedure action, then one call template per
prototype block, sorted case-insensitively by procCode and annotated with
the inferred return type, the annotation omitted for STATEMENT. -/
theorem claim_C8_amended (cfg : ProceduresConfig) (ws : Workspace) :
    flyoutCategory cfg ws =
      (if (if cfg.defaultEnableReturns
           then decide
             ((sortProcedureMutations_ (allProcedureMutations ws)).length > 0)
           else ws.procedureReturnsEnabled)
       then [FlyoutEl.button "OPEN_RETURN_DOCS", FlyoutEl.returnBlock]
       else []) ++
      FlyoutEl.button "CREATE_PROCEDURE" ::
        (sortProcedureMutations_ (allProcedureMutations ws)).map
          (fun procCode =>
            FlyoutEl.callBlock procCode
              (if getProcedureReturnType procCode ws !=
                   PROCEDURES_CALL_TYPE_STATEMENT
               then some (getProcedureReturnType procCode ws) else none)) ∧
    (sortProcedureMutations_ (allProcedureMutations ws)).Pairwise
      (fun a b => compareStringsLe a b = true) := by
  refine ⟨?_, sortProcedureMutations_pairwise _⟩
  simp only [flyoutCategory]
  cases h : (if cfg.defaultEnableReturns
      then decide
        ((sortProcedureMutations_ (allProcedureMutations ws)).length > 0)
      else ws.procedureReturnsEnabled) with
  | false => simp [h]
  | true => simp [h]

/-- Witness for the amended C7 at scenario B: the legal name bar is
accepted and renameProcedure reaches exactly the supporting block 3. -/
theorem claim_C7_amended_witness :
    findLegalName 10 (stripProcedureName "bar") (procDefBlock 1 "foo")
      wsRenameB = some "bar" ∧
    ([3] : List Nat) =
      (if "foo" != stripProcedureName "bar" && "foo" != "bar"
       then (wsRenameB.getAllBlocks.filter
         (fun b => b.hasRenameProcedure)).map Block.id
       else []) ∧
    ([] : List Ev) = [] :=
  claim_C7_amended 10 "bar" "foo" (procDefBlock 1 "foo") wsRenameB "bar"
    [3] [] (by decide)

/-- C9 counterexample: the claim states that getCallers never includes a
node flagged as a transient insertion-preview marker.  The loop of
part_000:357-366 checks only the block type and the procCode, so on a
workspace whose single top block is an insertion-marker call of p,
getCallers returns exactly that marker block. -/
theorem claim_C9_counterexample :
    (getCallers "p" wsMarkerCaller 99 false).map Block.isInsertionMarker =
      [true] ∧
    (getCallers "p" wsMarkerCaller 99 false).map Block.id = [8] := by decide

/-- C9 amended: getCallers returns exactly the call-type blocks with a
non-empty procCode equal to the given name among the descendants of the
top-level blocks, excluding the top-level stack whose root id is the
definitionRoot id when allowRecursive is false; insertion-marker blocks
are not excluded. -/
theorem claim_C9_amended (name : String) (ws : Workspace)
    (definitionRootId : Nat) (allowRecursive : Bool) (b : Block) :
    b ∈ getCallers name ws definitionRootId allowRecursive ↔
      ((∃ t ∈ ws.getTopBlocks,
          (t.id ≠ definitionRootId ∨ allowRecursive = true) ∧
          b ∈ getDescendants t) ∧
       b.btype = PROCEDURES_CALL_BLOCK_TYPE ∧
       b.procCode = some name ∧ name ≠ "") := by
  simp only [getCallers, List.mem_filter, List.mem_flatMap]
  constructor
  · rintro ⟨⟨t, ⟨htmem, htf⟩, hdesc⟩, hcond⟩
    rw [Bool.and_eq_true] at hcond
    obtain ⟨hbt, hrest⟩ := hcond
    have hor : t.id ≠ definitionRootId ∨ allowRecursive = true := by
      have h1 : (t.id == definitionRootId && !allowRecursive) = false := by
        rwa [Bool.not_eq_true'] at htf
      rcases Bool.and_eq_false_iff.mp h1 with h | h
      · exact Or.inl (by simpa using h)
      · exact Or.inr (by simpa using h)
    refine ⟨⟨t, htmem, hor, hdesc⟩, by simpa using hbt, ?_⟩
    rcases hbc : b.procCode with _ | pc
    · rw [hbc] at hrest; simp at hrest
    · rw [hbc] at hrest
      simp only [Bool.and_eq_true, bne_iff_ne, beq_iff_eq] at hrest
      obtain ⟨hne, heq⟩ := hrest
      subst heq
      exact ⟨rfl, hne⟩
  · rintro ⟨⟨t, htmem, hor, hdesc⟩, hbt, hsome, hne⟩
    refine ⟨⟨t, ⟨htmem, ?_⟩, hdesc⟩, ?_⟩
    · rw [Bool.not_eq_true']
      rcases hor with h | h
      · exact Bool.and_eq_false_iff.mpr (Or.inl (by simpa using h))
      · exact Bool.and_eq_false_iff.mpr (Or.inr (by simp [h]))
    · rw [Bool.and_eq_true]
      refine ⟨by simpa using hbt, ?_⟩
      rw [hsome]
      simp only [Bool.and_eq_true, bne_iff_ne, beq_iff_eq]
      exact ⟨hne, trivial⟩

/-- Witness for the amended C9: the call of p in the reconciliation
workspace is reported as a caller when the definition stack is excluded. -/
theorem claim_C9_amended_witness :
    callSiteBlock 9 "p" PROCEDURES_CALL_TYPE_STATEMENT false ∈
      getCallers "p" wsReconcile 1 false :=
  (claim_C9_amended "p" wsReconcile 1 false _).mpr
    ⟨⟨callSiteBlock 9 "p" PROCEDURES_CALL_TYPE_STATEMENT false,
      List.mem_cons_of_mem _ (List.mem_cons_self _ _),
      Or.inl (by decide),
      List.mem_cons_self _ _⟩,
     by decide, rfl, by decide⟩

/-- The rewrite loop of the reconciliation pass emits no group markers of
its own. -/
theorem processReturnsChangedEvLoop_no_group (u : Bool) (i f : TypeMap)
    (thr : Nat → Bool) : ∀ l : List Block,
    Ev.groupStart ∉ (processReturnsChangedEvLoop u i f thr l).1 ∧
    Ev.groupEnd ∉ (processReturnsChangedEvLoop u i f thr l).1 := by
  intro l
  induction l with
  | nil => simp [processReturnsChangedEvLoop]
  | cons b rest ih =>
    cases hct : callRewriteType u i f b with
    | none => simpa [processReturnsChangedEvLoop, hct] using ih
    | some t =>
      by_cases hthr : thr b.id = true
      · simp [processReturnsChangedEvLoop, hct, hthr]
      · simp only [processReturnsChangedEvLoop, hct, hthr]
        simp [List.mem_cons, ih.1, ih.2]

/-- The caller loop of mutateCallersAndPrototype emits no group markers of
its own. -/
theorem mutateCallersAndPrototypeEvLoop_no_group (thr chg : Nat → Bool) :
    ∀ l : List Block,
    Ev.groupStart ∉ (mutateCallersAndPrototypeEvLoop thr chg l).1 ∧
    Ev.groupEnd ∉ (mutateCallersAndPrototypeEvLoop thr chg l).1 := by
  intro l
  induction l with
  | nil => simp [mutateCallersAndPrototypeEvLoop]
  | cons b rest ih =>
    by_cases hthr : thr b.id = true
    · simp [mutateCallersAndPrototypeEvLoop, hthr]
    · by_cases hchg : chg b.id = true
      · simp only [mutateCallersAndPrototypeEvLoop, hthr, hchg]
        simp [List.mem_cons, ih.1, ih.2]
      · simpa [mutateCallersAndPrototypeEvLoop, hthr, hchg] using ih

/-- C10 counterexample: the claim states that every mutation batch emits
its end-of-group marker even when a rewrite step throws.  The
reconciliation loop of newFile.js:55-103 has no try/finally, so when the
rebuild of the call block with id 9 throws, the emitted trace is the
opening marker alone and the group is left half-open. -/
theorem claim_C10_counterexample :
    processReturnsChangedEv true [("p", PROCEDURES_CALL_TYPE_STATEMENT)]
      wsReconcile (fun i => i == 9) = ([Ev.groupStart], true) ∧
    Ev.groupEnd ∉ [Ev.groupStart] := by decide

/-- C10 amended: only the call-shape-change option of
part_000:621-645 closes its group unconditionally (try/finally), its trace
holding exactly one end-of-group marker for every throw oracle; the
reconciliation pass and the caller/prototype mutation close their group
exactly when no rewrite step throws — after a throw their trace holds no
end-of-group marker, and on a throw-free run every opened group is
closed. -/
theorem claim_C10_amended :
    (∀ (block : Block) (ws : Workspace) (thr : Nat → Bool),
      (makeChangeTypeOptionEv block ws thr).1.count Ev.groupEnd = 1) ∧
    (∀ (u : Bool) (i : TypeMap) (ws : Workspace) (thr : Nat → Bool),
      ((processReturnsChangedEv u i ws thr).2 = true →
        Ev.groupEnd ∉ (processReturnsChangedEv u i ws thr).1) ∧
      ((processReturnsChangedEv u i ws thr).2 = false →
        (processReturnsChangedEv u i ws thr).1.count Ev.groupEnd = 1)) ∧
    (∀ (name : String) (ws : Workspace) (thr chg : Nat → Bool),
      ((mutateCallersAndPrototypeEv name ws thr chg).2 = true →
        Ev.groupEnd ∉ (mutateCallersAndPrototypeEv name ws thr chg).1) ∧
      ((mutateCallersAndPrototypeEv name ws thr chg).2 = false →
        (mutateCallersAndPrototypeEv name ws thr chg).1.count Ev.groupStart =
          (mutateCallersAndPrototypeEv name ws thr chg).1.count
            Ev.groupEnd)) := by
  refine ⟨?_, ?_, ?_⟩
  · intro block ws thr
    by_cases hthr : thr block.id = true
    · simp [makeChangeTypeOptionEv, hthr]
    · simp [makeChangeTypeOptionEv, hthr]
  · intro u i ws thr
    have hng := processReturnsChangedEvLoop_no_group u i
      (getAllProcedureReturnTypes ws) thr ws.getTopBlocks
    by_cases hb : (processReturnsChangedEvLoop u i
        (getAllProcedureReturnTypes ws) thr ws.getTopBlocks).2 = true
    · have he : processReturnsChangedEv u i ws thr =
          (Ev.groupStart :: (processReturnsChangedEvLoop u i
            (getAllProcedureReturnTypes ws) thr ws.getTopBlocks).1, true) := by
        simp only [processReturnsChangedEv]
        rw [if_pos hb]
      rw [he]
      constructor
      · intro _
        simp [List.mem_cons, hng.2]
      · intro h; cases h
    · have hbf : (processReturnsChangedEvLoop u i
          (getAllProcedureReturnTypes ws) thr ws.getTopBlocks).2 = false :=
        Bool.not_eq_true _ ▸ hb
      have he : processReturnsChangedEv u i ws thr =
          (Ev.groupStart :: (processReturnsChangedEvLoop u i
              (getAllProcedureReturnTypes ws) thr ws.getTopBlocks).1 ++
            [Ev.groupEnd] ++
            (if toolboxOutdated i (getAllProcedureReturnTypes ws)
             then [Ev.refreshToolbox] else []),
           false) := by
        simp only [processReturnsChangedEv]
        rw [if_neg hb]
      rw [he]
      constructor
      · intro h; cases h
      · intro _
        rw [List.count_append, List.count_append, List.count_cons]
        rw [List.count_eq_zero.mpr hng.2]
        cases hto : toolboxOutdated i (getAllProcedureReturnTypes ws) <;>
          simp
  · intro name ws thr chg
    cases hd : getDefineBlock name ws with
    | none =>
      have he : mutateCallersAndPrototypeEv name ws thr chg = ([], false) := by
        rw [mutateCallersAndPrototypeEv, hd]
      rw [he]
      exact ⟨fun h => (nomatch h), fun _ => rfl⟩
    | some defineBlock =>
      cases hp : getPrototypeBlock name ws with
      | none =>
        have he : mutateCallersAndPrototypeEv name ws thr chg = ([], false) := by
          rw [mutateCallersAndPrototypeEv, hd, hp]
        rw [he]
        exact ⟨fun h => (nomatch h), fun _ => rfl⟩
      | some prototypeBlock =>
        have hng := mutateCallersAndPrototypeEvLoop_no_group thr chg
          (getCallers name ws defineBlock.id true ++ [prototypeBlock])
        by_cases hb : (mutateCallersAndPrototypeEvLoop thr chg
            (getCallers name ws defineBlock.id true ++ [prototypeBlock])).2 =
            true
        · have he : mutateCallersAndPrototypeEv name ws thr chg =
              (Ev.groupStart :: (mutateCallersAndPrototypeEvLoop thr chg
                (getCallers name ws defineBlock.id true ++
                  [prototypeBlock])).1, true) := by
            rw [mutateCallersAndPrototypeEv, hd, hp]
            simp only []
            rw [if_pos hb]
          rw [he]
          constructor
          · intro _
            simp [List.mem_cons, hng.2]
          · intro h; cases h
        · have he : mutateCallersAndPrototypeEv name ws thr chg =
              (Ev.groupStart :: (mutateCallersAndPrototypeEvLoop thr chg
                  (getCallers name ws defineBlock.id true ++
                    [prototypeBlock])).1 ++ [Ev.groupEnd], false) := by
            rw [mutateCallersAndPrototypeEv, hd, hp]
            simp only []
            rw [if_neg hb]
          rw [he]
          constructor
          · intro h; cases h
          · intro _
            simp [List.count_append, List.count_cons,
              List.count_eq_zero.mpr hng.1, List.count_eq_zero.mpr hng.2]

/-- Witness for the amended C10: after the throw on block 9 the
reconciliation trace holds no end-of-group marker, while the
call-shape-change option still closes its group under the same oracle. -/
theorem claim_C10_amended_witness :
    Ev.groupEnd ∉ (processReturnsChangedEv true
      [("p", PROCEDURES_CALL_TYPE_STATEMENT)] wsReconcile
      (fun i => i == 9)).1 ∧
    (makeChangeTypeOptionEv
      (callSiteBlock 9 "p" PROCEDURES_CALL_TYPE_STATEMENT false) wsReconcile
      (fun i => i == 9)).1.count Ev.groupEnd = 1 :=
  ⟨(claim_C10_amended.2.1 true [("p", PROCEDURES_CALL_TYPE_STATEMENT)]
      wsReconcile (fun i => i == 9)).1 (by decide),
   claim_C10_amended.1
     (callSiteBlock 9 "p" PROCEDURES_CALL_TYPE_STATEMENT false) wsReconcile
     (fun i => i == 9)⟩

end ScratchProcedures
